import Mathlib

/-!
Shallow embedding of the mc-rust-protocol codec library (Rust) in Lean 4,
used to check the repository's natural-language specification against the
code.

Modelling conventions:

* A byte stream is a `List Nat`; each element denotes one `u8` (values are
  kept below 256 by every writer; readers treat elements with the same
  bit operations the Rust code applies to `u8` values).
* Machine integers are `Nat`/`Int` with explicit `% 2^w` at the places the
  Rust code converts or can overflow (`as u8`, `as u32`, `as u64`, wrapping
  shifts on `u32`/`u64`).
* Readers have type `List Nat → PRes α`: they return the decoded value
  together with the unconsumed rest of the stream, or an error value
  (`Result::Err` in Rust), or `aborted` for a Rust panic.
* Writers return the emitted byte list, inside `Except Err` when the Rust
  writer can return `Err` for a reason other than I/O (writing into a
  `Vec<u8>` cannot fail, so the I/O error paths of `write_to` are dead).
* Recursive readers whose Rust originals are `loop`s are defined with an
  explicit fuel argument where no structural measure exists; the entry
  points supply fuel that dominates the number of iterations any input of
  the given length can cause, so the fuel-exhaustion branch is unreachable
  and exists only to make the recursion structural (and hence
  kernel-reducible).
-/

namespace MCRP

/-! ## Byte-stream primitives and integer casts (src/lib.rs) -/

/-- Error values of `crate::Error` that the modelled code can produce:
`SerializeError(msg)`, I/O end-of-stream, and `Utf8Error`. -/
inductive Err : Type where
  | serialize : String → Err
  | ioEof : Err
  | utf8 : Err
deriving DecidableEq

/-- Result of running a reader: the decoded value plus the rest of the
stream, a recoverable error (`Err` in Rust), or `aborted` for a panic. -/
inductive PRes (α : Type) : Type where
  | ok : α → List Nat → PRes α
  | err : Err → PRes α
  | aborted : PRes α
deriving DecidableEq

/-- Sequencing of reader results (the `?` operator on reader calls). -/
def PRes.bind {α β : Type} : PRes α → (α → List Nat → PRes β) → PRes β
  | .ok a rest, f => f a rest
  | .err e, _ => .err e
  | .aborted, _ => .aborted

/-- Reinterpret an `i32` value as `u32` (Rust `self.0 as u32`). -/
def toU32 (i : Int) : Nat := (i % (2 : Int) ^ 32).toNat

/-- Reinterpret an `i32`/`i64` value as `u64`/`usize`
(Rust `as u64` / `as usize`, which sign-extends first). -/
def toU64 (i : Int) : Nat := (i % (2 : Int) ^ 64).toNat

/-- Reinterpret a `u32` bit pattern (a `Nat` below `2^32`) as `i32`. -/
def toI32 (n : Nat) : Int := if n < 2 ^ 31 then (n : Int) else (n : Int) - 2 ^ 32

/-- Reinterpret a `u16` bit pattern as `i16`. -/
def toI16 (n : Nat) : Int := if n < 2 ^ 15 then (n : Int) else (n : Int) - 2 ^ 16

/-- Reinterpret a `u8` bit pattern as `i8`. -/
def toI8 (n : Nat) : Int := if n < 2 ^ 7 then (n : Int) else (n : Int) - 2 ^ 8

/-- Reinterpret a `u64` bit pattern as `i64`. -/
def toI64 (n : Nat) : Int := if n < 2 ^ 63 then (n : Int) else (n : Int) - 2 ^ 64

/-- Rust `usize as i32` (a wrapping `as` cast). -/
def usizeToI32 (n : Nat) : Int := toI32 (n % 2 ^ 32)

/-- `Lengthable::into_len` for `VarInt`: `self.0 as usize`. -/
def VarInt.into_len (i : Int) : Nat := toU64 i

/-- `read_u8`: one byte from the stream, or an I/O EOF error. -/
def readU8 : List Nat → PRes Nat
  | [] => .err .ioEof
  | b :: rest => .ok b rest

/-- `byteorder` fixed-width reads: exactly `k` bytes or an I/O EOF error. -/
def readExact : Nat → List Nat → PRes (List Nat)
  | 0, rest => .ok [] rest
  | _ + 1, [] => .err .ioEof
  | k + 1, b :: rest => (readExact k rest).bind fun bs r => .ok (b :: bs) r

/-- Big-endian interpretation of a byte list. -/
def beToNat (bs : List Nat) : Nat := bs.foldl (fun a b => a * 256 + b) 0

/-- The `k` big-endian bytes of `n mod 2^(8k)` (fixed-width big-endian write). -/
def natToBe : Nat → Nat → List Nat
  | 0, _ => []
  | k + 1, n => natToBe k (n / 256) ++ [n % 256]

/-! ## VarInt (src/lib.rs, `impl Serializable for VarInt`)

`write_to` loops on a `u32`: while `(value as u8 & !0x7F) != 0` it emits
`(value as u8 & SEGMENT_BITS) | CONTINUE_BIT` and shifts right by 7; the
final byte is `value as u8`.  Note that the loop condition masks `value`
down to its low byte *before* testing bit 7, exactly as the Rust source
does.  The loop shifts a `u32` right by 7 each iteration, so it runs at
most 5 times; `varIntWriteGo` carries that bound as structural fuel (the
fuel-out branch is unreachable for any `value < 2^32`). -/

def varIntWriteGo : Nat → Nat → List Nat
  | 0, _ => []
  | fuel + 1, value =>
    if (value % 256) &&& 0x80 = 0 then
      [value % 256]
    else
      ((value % 256) &&& 0x7F ||| 0x80) :: varIntWriteGo fuel (value >>> 7)

/-- `VarInt::write_to` on the `i32` payload `n`. -/
def VarInt.write_to (n : Int) : List Nat := varIntWriteGo 5 (toU32 n)

/-- The loop of `VarInt::read_from`: accumulate 7-bit groups shifted into a
`u32` until a byte without the continuation bit, erroring after the high
bit is still set once `position` reaches 32. -/
def varIntReadGo : List Nat → Nat → Nat → PRes Int
  | [], _, _ => .err .ioEof
  | b :: rest, value, position =>
    let value := value ||| ((b &&& 0x7F) <<< position) % 2 ^ 32
    if b &&& 0x80 = 0 then
      .ok (toI32 value) rest
    else
      let position := position + 7
      if position ≥ 32 then .err (.serialize "VarInt is too big")
      else varIntReadGo rest value position

/-- `VarInt::read_from`. -/
def VarInt.read_from (bytes : List Nat) : PRes Int := varIntReadGo bytes 0 0

/-- The loop of `i32::leading_zeros`, as `32 - bitlength`; `bitLenGo 32 n`
is the position of the highest set bit of `n`, plus one (0 for `n = 0`). -/
def bitLenGo : Nat → Nat → Nat
  | 0, _ => 0
  | fuel + 1, n => if n = 0 then 0 else bitLenGo fuel (n / 2) + 1

/-- `u32::leading_zeros` of a 32-bit pattern. -/
def leadingZeros32 (n : Nat) : Nat := 32 - bitLenGo 32 n

/-- `VarInt::written_size`: `1` for `0`, else
`(31 - leading_zeros) / 7 + 1` on the `i32` payload. -/
def VarInt.written_size (n : Int) : Nat :=
  if n = 0 then 1 else (31 - leadingZeros32 (toU32 n)) / 7 + 1

/-! ## Scalar codecs (src/lib.rs, `impl Serializable for ...`) -/

/-- `bool::read_from`: one byte, nonzero is `true`. -/
def boolRead (s : List Nat) : PRes Bool :=
  (readU8 s).bind fun b rest => .ok (b != 0) rest

/-- `bool::write_to`: `*self as u8`. -/
def boolWrite (b : Bool) : List Nat := [if b then 1 else 0]

/-- `u8::write_to`. -/
def u8Write (b : Nat) : List Nat := [b % 256]

/-- `i8::write_to`: the two's-complement byte of the value. -/
def i8Write (v : Int) : List Nat := [(v % (256 : Int)).toNat]

/-- `i8::read_from`. -/
def i8Read (s : List Nat) : PRes Int :=
  (readU8 s).bind fun b rest => .ok (toI8 b) rest

/-- `i16::write_to` (big-endian). -/
def i16Write (v : Int) : List Nat := natToBe 2 ((v % (2 : Int) ^ 16).toNat)

/-- `i16::read_from` (big-endian). -/
def i16Read (s : List Nat) : PRes Int :=
  (readExact 2 s).bind fun bs rest => .ok (toI16 (beToNat bs)) rest

/-- `i32::write_to` (big-endian). -/
def i32Write (v : Int) : List Nat := natToBe 4 (toU32 v)

/-- `i32::read_from` (big-endian). -/
def i32Read (s : List Nat) : PRes Int :=
  (readExact 4 s).bind fun bs rest => .ok (toI32 (beToNat bs)) rest

/-- `i64::write_to` (big-endian). -/
def i64Write (v : Int) : List Nat := natToBe 8 (toU64 v)

/-- `i64::read_from` (big-endian). -/
def i64Read (s : List Nat) : PRes Int :=
  (readExact 8 s).bind fun bs rest => .ok (toI64 (beToNat bs)) rest

/-- `f32::write_to`, on the IEEE-754 bit pattern (floats are carried as
their 32-bit patterns; serialization only moves the raw bytes). -/
def f32Write (bits : Nat) : List Nat := natToBe 4 bits

/-- `f32::read_from`, returning the IEEE-754 bit pattern. -/
def f32Read (s : List Nat) : PRes Nat :=
  (readExact 4 s).bind fun bs rest => .ok (beToNat bs) rest

/-- `f64::write_to` on the 64-bit pattern. -/
def f64Write (bits : Nat) : List Nat := natToBe 8 bits

/-- `f64::read_from`, returning the 64-bit pattern. -/
def f64Read (s : List Nat) : PRes Nat :=
  (readExact 8 s).bind fun bs rest => .ok (beToNat bs) rest

/-- `UUID::read_from`: a big-endian `u128`. -/
def UUID.read_from (s : List Nat) : PRes Nat :=
  (readExact 16 s).bind fun bs rest => .ok (beToNat bs) rest

/-- `UUID::write_to`: a big-endian `u128`. -/
def UUID.write_to (u : Nat) : List Nat := natToBe 16 u

/-! ## UTF-8 validation (Rust `String::from_utf8`)

The exact byte-level acceptance of Rust's standard UTF-8 validation
(RFC 3629): no overlong forms, no surrogates, nothing above U+10FFFF. -/

/-- A UTF-8 continuation byte, `0x80..=0xBF`. -/
def utf8Cont (b : Nat) : Bool := decide (0x80 ≤ b) && decide (b ≤ 0xBF)

/-- Whether a byte list is valid UTF-8, following the leading-byte ranges
Rust's `String::from_utf8` accepts. -/
def utf8Valid : List Nat → Bool
  | [] => true
  | b :: rest =>
    if b ≤ 0x7F then utf8Valid rest
    else if 0xC2 ≤ b && b ≤ 0xDF then
      match rest with
      | c1 :: r => utf8Cont c1 && utf8Valid r
      | [] => false
    else if b = 0xE0 then
      match rest with
      | c1 :: c2 :: r => (decide (0xA0 ≤ c1) && decide (c1 ≤ 0xBF)) && utf8Cont c2 && utf8Valid r
      | _ => false
    else if (0xE1 ≤ b && b ≤ 0xEC) || b = 0xEE || b = 0xEF then
      match rest with
      | c1 :: c2 :: r => utf8Cont c1 && utf8Cont c2 && utf8Valid r
      | _ => false
    else if b = 0xED then
      match rest with
      | c1 :: c2 :: r => (decide (0x80 ≤ c1) && decide (c1 ≤ 0x9F)) && utf8Cont c2 && utf8Valid r
      | _ => false
    else if b = 0xF0 then
      match rest with
      | c1 :: c2 :: c3 :: r =>
        (decide (0x90 ≤ c1) && decide (c1 ≤ 0xBF)) && utf8Cont c2 && utf8Cont c3 && utf8Valid r
      | _ => false
    else if 0xF1 ≤ b && b ≤ 0xF3 then
      match rest with
      | c1 :: c2 :: c3 :: r => utf8Cont c1 && utf8Cont c2 && utf8Cont c3 && utf8Valid r
      | _ => false
    else if b = 0xF4 then
      match rest with
      | c1 :: c2 :: c3 :: r =>
        (decide (0x80 ≤ c1) && decide (c1 ≤ 0x8F)) && utf8Cont c2 && utf8Cont c3 && utf8Valid r
      | _ => false
    else false

/-! ## String codec (src/lib.rs, `impl Serializable for String`)

A Rust `String` is modelled by its UTF-8 byte list. -/

/-- `String::read_from`: VarInt length, bounded at 32767, then up to that
many bytes (`take` + `read_to_end`, which does not fail on a short
stream), decoded as UTF-8 (`?` surfaces `Utf8Error`). -/
def StringS.read_from (s : List Nat) : PRes (List Nat) :=
  (VarInt.read_from s).bind fun v rest =>
    let len := VarInt.into_len v
    if len > 32767 then .err (.serialize "Invalid string size")
    else
      let bytes := rest.take len
      if utf8Valid bytes then .ok bytes (rest.drop len) else .err .utf8

/-- `String::write_to`: refuse byte lengths above 32767, else a VarInt
length prefix followed by the bytes. -/
def StringS.write_to (bytes : List Nat) : Except Err (List Nat) :=
  if bytes.length > 32767 then .error (.serialize "Invalid string size")
  else .ok (VarInt.write_to (usizeToI32 bytes.length) ++ bytes)

/-! ## Generic composite codecs (src/lib.rs) -/

/-- `Option<T>::read_from`: presence `bool`, then `T` if `true`. -/
def optionRead {α : Type} (elem : List Nat → PRes α) (s : List Nat) : PRes (Option α) :=
  (boolRead s).bind fun present rest =>
    if present then (elem rest).bind fun a r => .ok (some a) r
    else .ok none rest

/-- `Option<T>::write_to`: presence byte, then the value if present. -/
def optionWrite {α : Type} (elem : α → Except Err (List Nat)) :
    Option α → Except Err (List Nat)
  | none => .ok (boolWrite false)
  | some v => do
    let bs ← elem v
    .ok (boolWrite true ++ bs)

/-- The element loop of `PrefixedArray<V>::read_from`. -/
def readN {α : Type} (elem : List Nat → PRes α) : Nat → List Nat → PRes (List α)
  | 0, rest => .ok [] rest
  | n + 1, s =>
    (elem s).bind fun a rest =>
      (readN elem n rest).bind fun as r => .ok (a :: as) r

/-- `PrefixedArray<V>::read_from`: VarInt length then that many elements. -/
def prefixedArrayRead {α : Type} (elem : List Nat → PRes α) (s : List Nat) :
    PRes (List α) :=
  (VarInt.read_from s).bind fun v rest => readN elem (VarInt.into_len v) rest

/-- Emit each element of a list with a fallible writer, concatenating. -/
def writeList {α : Type} (elem : α → Except Err (List Nat)) :
    List α → Except Err (List Nat)
  | [] => .ok []
  | a :: as => do
    let bs ← elem a
    let rest ← writeList elem as
    .ok (bs ++ rest)

/-- `PrefixedArray<V>::write_to`: `VarInt::from_len(len)` then the
elements. -/
def prefixedArrayWrite {α : Type} (elem : α → Except Err (List Nat))
    (xs : List α) : Except Err (List Nat) := do
  let body ← writeList elem xs
  .ok (VarInt.write_to (usizeToI32 xs.length) ++ body)

/-- `LenPrefixedBytes<VarInt>::read_from`: VarInt length then up to that
many raw bytes (`take` + `read_to_end`). -/
def lenPrefixedBytesRead (s : List Nat) : PRes (List Nat) :=
  (VarInt.read_from s).bind fun v rest =>
    let len := VarInt.into_len v
    .ok (rest.take len) (rest.drop len)

/-- `LenPrefixedBytes<VarInt>::write_to`. -/
def lenPrefixedBytesWrite (data : List Nat) : List Nat :=
  VarInt.write_to (usizeToI32 data.length) ++ data

/-! ## Position (src/lib.rs, `impl Serializable for Position`)

`write_to` packs the three fields into one `u64`; `read_from` unpacks with
*unsigned* 64-bit shifts and truncating `as i32` casts, exactly as the
source does. -/

/-- `Position::write_to`:
`(x as u64 & 0x3FFFFFF) << 38 | (z as u64 & 0x3FFFFFF) << 12 | y as u64 & 0xFFF`,
written as a big-endian `u64`. -/
def Position.write_to (x y z : Int) : List Nat :=
  let val := ((toU64 x &&& 0x3FFFFFF) <<< 38) |||
             ((toU64 z &&& 0x3FFFFFF) <<< 12) |||
             (toU64 y &&& 0xFFF)
  natToBe 8 val

/-- `Position::read_from`: `x = (val >> 38) as i32`,
`y = ((val << 52) >> 52) as i32`, `z = ((val << 26) >> 38) as i32`, with
all shifts performed on the unsigned `u64` value. -/
def Position.read_from (s : List Nat) : PRes (Int × Int × Int) :=
  (readExact 8 s).bind fun bs rest =>
    let val := beToNat bs
    let x := toI32 ((val >>> 38) % 2 ^ 32)
    let y := toI32 ((((val <<< 52) % 2 ^ 64) >>> 52) % 2 ^ 32)
    let z := toI32 ((((val <<< 26) % 2 ^ 64) >>> 38) % 2 ^ 32)
    .ok (x, y, z) rest

/-! ## NBT codec (src/nbt.rs)

`Tag` is the 13-kind named-binary-tag sum.  Floats are carried as their
IEEE-754 bit patterns, Rust `String`s as UTF-8 byte lists, and the
`HashMap` of a compound as an association list (Rust's `HashMap::insert`
becomes `assocPut`; `write_to` iterates the entries in list order, one
fixed representative of the map's unspecified iteration order). -/

inductive Tag : Type where
  | end_ : Tag
  | byte (v : Int) : Tag
  | short (v : Int) : Tag
  | int (v : Int) : Tag
  | long (v : Int) : Tag
  | float (bits : Nat) : Tag
  | double (bits : Nat) : Tag
  | byteArray (data : List Nat) : Tag
  | string (data : List Nat) : Tag
  | list (items : List Tag) : Tag
  | compound (entries : List (List Nat × Tag)) : Tag
  | intArray (v : List Int) : Tag
  | longArray (v : List Int) : Tag

/-- `Tag::internal_id`: the numeric tag type, `0..=12`. -/
def Tag.internal_id : Tag → Int
  | .end_ => 0
  | .byte _ => 1
  | .short _ => 2
  | .int _ => 3
  | .long _ => 4
  | .float _ => 5
  | .double _ => 6
  | .byteArray _ => 7
  | .string _ => 8
  | .list _ => 9
  | .compound _ => 10
  | .intArray _ => 11
  | .longArray _ => 12

/-- `HashMap::insert` on the association-list model: replace the value of
an existing key, else append the binding. -/
def assocPut {α : Type} (k : List Nat) (v : α) :
    List (List Nat × α) → List (List Nat × α)
  | [] => [(k, v)]
  | (k2, v2) :: rest =>
    if k = k2 then (k2, v) :: rest else (k2, v2) :: assocPut k v rest

/-- `nbt::write_string`: `(data.len() as i16)` big-endian, then the bytes
(the length is written modulo `2^16`, as the `as i16` cast wraps). -/
def nbtWriteString (bytes : List Nat) : List Nat :=
  natToBe 2 (bytes.length % 2 ^ 16) ++ bytes

/-- `nbt::read_string`: a big-endian `i16` length, then up to `len as u64`
bytes (`take` + `read_to_end`), then `String::from_utf8(bytes).unwrap()` —
the unwrap makes invalid UTF-8 a panic (`aborted`), not an error value. -/
def nbtReadString (s : List Nat) : PRes (List Nat) :=
  (readExact 2 s).bind fun bs rest =>
    let len := toI16 (beToNat bs)
    let cnt := toU64 len
    let bytes := rest.take cnt
    if utf8Valid bytes then .ok bytes (rest.drop cnt) else .aborted

/-- Concatenate the output of an infallible element writer over a list. -/
def catWrites {α : Type} (f : α → List Nat) (xs : List α) : List Nat :=
  xs.foldr (fun a acc => f a ++ acc) []

mutual

/-- `Tag::write_to`.  Note it emits only the type-specific payload: no
leading tag-type byte is written at this level (list elements get their
element type from the list header, compound values from the per-entry
byte that the compound arm itself writes). -/
def Tag.write_to : Tag → List Nat
  | .end_ => []
  | .byte v => i8Write v
  | .short v => i16Write v
  | .int v => i32Write v
  | .long v => i64Write v
  | .float bits => f32Write bits
  | .double bits => f64Write bits
  | .byteArray data => i32Write (usizeToI32 data.length) ++ data
  | .string bytes => nbtWriteString bytes
  | .list items =>
    match items with
    | [] => i8Write 0 ++ i32Write 0
    | h :: _ =>
      i8Write h.internal_id ++ i32Write (usizeToI32 items.length) ++
        tagWriteItems items
  | .compound entries => tagWriteEntries entries ++ [0]
  | .intArray v => i32Write (usizeToI32 v.length) ++ catWrites i32Write v
  | .longArray v => i32Write (usizeToI32 v.length) ++ catWrites i64Write v

/-- The element loop of the `Tag::List` writer arm. -/
def tagWriteItems : List Tag → List Nat
  | [] => []
  | t :: ts => t.write_to ++ tagWriteItems ts

/-- The entry loop of the `Tag::Compound` writer arm: per entry the value's
`internal_id` as `i8`, the `u16`-prefixed name, then the value payload. -/
def tagWriteEntries : List (List Nat × Tag) → List Nat
  | [] => []
  | (k, v) :: rest =>
    i8Write v.internal_id ++ nbtWriteString k ++ v.write_to ++ tagWriteEntries rest

end

/-- Rust `for _ in 0..len` with an `i32` bound: the number of iterations
(`0` when the bound is negative). -/
def toLoopCount (i : Int) : Nat := i.toNat

mutual

/-- `Tag::read_type`: dispatch on the tag-type byte and read the payload.
The `fuel` argument bounds the total number of reader steps; every
recursive call decrements it, and the entry point `Tag.read_from` passes
fuel exceeding the number of steps any input of the given length can
drive (each nesting level consumes header bytes, and each list/compound
iteration spends one fuel), so the fuel-exhaustion branch is
unreachable. -/
def tagReadType : Nat → Nat → List Nat → PRes Tag
  | 0, _, _ => .err (.serialize "tag reader fuel exhausted")
  | fuel + 1, ty, s =>
    match ty with
    | 0 => .ok .end_ s
    | 1 => (i8Read s).bind fun v r => .ok (.byte v) r
    | 2 => (i16Read s).bind fun v r => .ok (.short v) r
    | 3 => (i32Read s).bind fun v r => .ok (.int v) r
    | 4 => (i64Read s).bind fun v r => .ok (.long v) r
    | 5 => (f32Read s).bind fun v r => .ok (.float v) r
    | 6 => (f64Read s).bind fun v r => .ok (.double v) r
    | 7 => (i32Read s).bind fun len r =>
        let cnt := toU64 len
        .ok (.byteArray (r.take cnt)) (r.drop cnt)
    | 8 => (nbtReadString s).bind fun v r => .ok (.string v) r
    | 9 => (readU8 s).bind fun ety r =>
        (i32Read r).bind fun len r2 =>
          (tagReadItems fuel ety (toLoopCount len) r2).bind fun items r3 =>
            .ok (.list items) r3
    | 10 => (tagReadEntries fuel [] s).bind fun entries r => .ok (.compound entries) r
    | 11 => (i32Read s).bind fun len r =>
        (readN i32Read (toLoopCount len) r).bind fun v r2 => .ok (.intArray v) r2
    | 12 => (i32Read s).bind fun len r =>
        (readN i64Read (toLoopCount len) r).bind fun v r2 => .ok (.longArray v) r2
    | _ => .err (.serialize "invalid tag")

/-- The element loop of the `Tag::List` reader arm. -/
def tagReadItems : Nat → Nat → Nat → List Nat → PRes (List Tag)
  | 0, _, _, _ => .err (.serialize "tag reader fuel exhausted")
  | _ + 1, _, 0, s => .ok [] s
  | fuel + 1, ty, n + 1, s =>
    (tagReadType fuel ty s).bind fun t r =>
      (tagReadItems fuel ty n r).bind fun ts r2 => .ok (t :: ts) r2

/-- The entry loop of the `Tag::Compound` reader arm: type byte, `0` ends
the compound, else name and payload, inserted with `HashMap::insert`. -/
def tagReadEntries : Nat → List (List Nat × Tag) → List Nat →
    PRes (List (List Nat × Tag))
  | 0, _, _ => .err (.serialize "tag reader fuel exhausted")
  | fuel + 1, acc, s =>
    (readU8 s).bind fun ty r =>
      if ty = 0 then .ok acc r
      else
        (nbtReadString r).bind fun name r2 =>
          (tagReadType fuel ty r2).bind fun v r3 =>
            tagReadEntries fuel (assocPut name v acc) r3

end

/-- Fuel that dominates the tag reader's step count for an input of length
`n`: each compound entry or array element consumes input bytes, and each
of the at most `2^31 - 1` iterations of a single list read costs one
fuel, with list headers costing 5 input bytes each. -/
def tagFuel (n : Nat) : Nat := (n + 1) * 2 ^ 33

/-- `Tag::read_from`: a tag-type byte, then `read_type`. -/
def Tag.read_from (s : List Nat) : PRes Tag :=
  (readU8 s).bind fun ty r => tagReadType (tagFuel s.length) ty r

/-! ## FixedBitSet (src/bitset.rs)

`FixedBitSet<L>` is modelled by its backing `Vec<u8>` as a `List Nat`,
with the const parameter `L` passed explicitly. -/

/-- `FixedBitSet::<L>::new()`: a backing vector of `L` zero bytes. -/
def FixedBitSet.new (L : Nat) : List Nat := List.replicate L 0

/-- `FixedBitSet::<L>::read_from`: `take ((L+7)/8)` then `read_to_end`
(reads up to that many bytes; a short stream is not an error). -/
def FixedBitSet.read_from (L : Nat) (s : List Nat) : PRes (List Nat) :=
  .ok (s.take ((L + 7) / 8)) (s.drop ((L + 7) / 8))

/-- `FixedBitSet::<L>::write_to`: error unless the backing vector holds
exactly `(L+7)/8` bytes. -/
def FixedBitSet.write_to (L : Nat) (data : List Nat) : Except Err (List Nat) :=
  if data.length ≠ (L + 7) / 8 then
    .error (.serialize s!"wrong fixed bitset length: {L}")
  else .ok data

/-- `FixedBitSet::get`: bit `i % 8` of byte `i / 8`; `none` models the
index-out-of-bounds panic (unreachable at this model's call sites). -/
def FixedBitSet.get (data : List Nat) (i : Nat) : Option Bool :=
  (data.get? (i / 8)).map fun b => (b &&& (1 <<< (i % 8))) != 0

/-- `FixedBitSet::set`: or bit `i % 8` into byte `i / 8` (call sites keep
the index in bounds, where `List.set`/`getD` agree with the Rust
indexing). -/
def FixedBitSet.set (data : List Nat) (i : Nat) : List Nat :=
  data.set (i / 8) ((data.getD (i / 8) 0) ||| (1 <<< (i % 8)))

/-! ## Slot and Item (src/slot.rs)

`Component` is a ~100-variant tagged sum whose variants the claims never
exercise; its `Serializable` impl enters the model as an explicit codec
dictionary `CompSer`, so `Slot`/`Item`/equipment are faithful in
everything except the component payloads they are parameterized over. -/

/-- The `Serializable` dictionary of `Component`. -/
structure CompSer (γ : Type) : Type where
  read : List Nat → PRes γ
  write : γ → Except Err (List Nat)

/-- `slot::Item`. -/
structure Item (γ : Type) : Type where
  item_id : Int
  components_to_add : List γ
  components_to_remove : List Int

/-- `slot::Slot`. -/
structure Slot (γ : Type) : Type where
  item_count : Int
  item : Option (Item γ)

/-- `Item::read_from`: id, the two lengths, then the two arrays. -/
def Item.read_from {γ : Type} (cs : CompSer γ) (s : List Nat) : PRes (Item γ) :=
  (VarInt.read_from s).bind fun item_id r1 =>
    (VarInt.read_from r1).bind fun addLen r2 =>
      (VarInt.read_from r2).bind fun removeLen r3 =>
        (readN cs.read (toLoopCount addLen) r3).bind fun adds r4 =>
          (readN VarInt.read_from (toLoopCount removeLen) r4).bind fun removes r5 =>
            .ok ⟨item_id, adds, removes⟩ r5

/-- `Item::write_to`: id, `|add|`, `|remove|`, then both arrays. -/
def Item.write_to {γ : Type} (cs : CompSer γ) (it : Item γ) :
    Except Err (List Nat) := do
  let adds ← writeList cs.write it.components_to_add
  let removes ← writeList (fun v => .ok (VarInt.write_to v)) it.components_to_remove
  .ok (VarInt.write_to it.item_id ++
    VarInt.write_to (usizeToI32 it.components_to_add.length) ++
    VarInt.write_to (usizeToI32 it.components_to_remove.length) ++
    adds ++ removes)

/-- `Slot::read_from`: a VarInt count, then an item exactly when the count
is positive. -/
def Slot.read_from {γ : Type} (cs : CompSer γ) (s : List Nat) : PRes (Slot γ) :=
  (VarInt.read_from s).bind fun item_count r1 =>
    if item_count > 0 then
      (Item.read_from cs r1).bind fun it r2 => .ok ⟨item_count, some it⟩ r2
    else .ok ⟨item_count, none⟩ r1

/-- `Slot::write_to`: the count, then the item if the `item` field is
`Some` — with no check that the count and the presence of the item
agree. -/
def Slot.write_to {γ : Type} (cs : CompSer γ) (sl : Slot γ) :
    Except Err (List Nat) := do
  match sl.item with
  | some it =>
    let bs ← Item.write_to cs it
    .ok (VarInt.write_to sl.item_count ++ bs)
  | none => .ok (VarInt.write_to sl.item_count)

/-! ## EntityEquipment (src/packet.rs, `impl Serializable for EntityEquipment`) -/

/-- `packet::EquipmentSlot`. -/
inductive EquipmentSlot : Type where
  | mainHand | offhand | boots | leggings | chestplate | helmet | body
deriving DecidableEq

/-- `packet::EquipmentEntry`. -/
structure EquipmentEntry (γ : Type) : Type where
  slot : EquipmentSlot
  item : Slot γ

/-- The loop of `EntityEquipment::read_from`: read a slot byte, stop when
its top bit `0x80` is clear, else match the *raw* byte against `0..=6`
(any byte with the top bit set falls to the error arm) and read a `Slot`.
Fuel is the iteration bound; each iteration consumes at least the slot
byte, so `length + 1` fuel from the entry point is never exhausted. -/
def equipReadGo {γ : Type} (cs : CompSer γ) :
    Nat → List (EquipmentEntry γ) → List Nat → PRes (List (EquipmentEntry γ))
  | 0, _, _ => .err (.serialize "equipment reader fuel exhausted")
  | fuel + 1, acc, s =>
    (readU8 s).bind fun slot r =>
      if slot &&& 0x80 = 0 then .ok acc r
      else
        let sl : Option EquipmentSlot :=
          if slot = 0 then some .mainHand
          else if slot = 1 then some .offhand
          else if slot = 2 then some .boots
          else if slot = 3 then some .leggings
          else if slot = 4 then some .chestplate
          else if slot = 5 then some .helmet
          else if slot = 6 then some .body
          else none
        match sl with
        | none => .err (.serialize s!"invalid equipment slot: {slot}")
        | some eq =>
          (Slot.read_from cs r).bind fun item r2 =>
            equipReadGo cs fuel (acc ++ [⟨eq, item⟩]) r2

/-- `EntityEquipment::read_from`. -/
def EntityEquipment.read_from {γ : Type} (cs : CompSer γ) (s : List Nat) :
    PRes (List (EquipmentEntry γ)) :=
  equipReadGo cs (s.length + 1) [] s

/-- `EntityEquipment::write_to`: per entry the slot index as a plain `i8`
(`0..=6`, continuation bit not set), then the `Slot`; after all entries a
single `0x80` terminator byte. -/
def EntityEquipment.write_to {γ : Type} (cs : CompSer γ)
    (equipment : List (EquipmentEntry γ)) : Except Err (List Nat) := do
  let body ← writeList (fun (e : EquipmentEntry γ) => do
    let idx : Int :=
      match e.slot with
      | .mainHand => 0
      | .offhand => 1
      | .boots => 2
      | .leggings => 3
      | .chestplate => 4
      | .helmet => 5
      | .body => 6
    let bs ← Slot.write_to cs e.item
    .ok (i8Write idx ++ bs)) equipment
  .ok (body ++ [0x80])

/-- The trivial component dictionary used to instantiate concrete
counterexamples whose component lists are empty. -/
def unitCS : CompSer Unit :=
  ⟨fun s => .ok () s, fun _ => .ok []⟩

/-! ## PlayersActionsData (src/packet.rs, `impl Serializable for PlayersActionsData`) -/

/-- `packet::ProfileProperty`. -/
structure ProfileProperty : Type where
  name : List Nat
  value : List Nat
  signature : Option (List Nat)

/-- `packet::InitializeChatData` (fields in declaration order). -/
structure InitChatData : Type where
  chat_session_id : Nat
  public_key_expire_time : Int
  enocoded_public_key : List Nat
  public_key_signature : List Nat

/-- `packet::PlayerAction` (the Rust `InitializeChat` variant is named
`initChat` here). -/
inductive PlayerAction : Type where
  | addPlayer (name : List Nat) (properties : List ProfileProperty)
  | initChat (data : Option InitChatData)
  | updateGamemode (gamemode : Int)
  | updateListed (listed : Bool)
  | updateLatency (ping : Int)
  | updateDisplayName (display_name : Option Tag)
  | updateListPriority (priority : Int)
  | updateHat (visible : Bool)

/-- `packet::PlayerActions`. -/
structure PlayerActions : Type where
  uuid : Nat
  player_actions : List PlayerAction

/-- Derived `ProfileProperty::read_from`: fields in declaration order. -/
def ProfileProperty.read_from (s : List Nat) : PRes ProfileProperty :=
  (StringS.read_from s).bind fun name r1 =>
    (StringS.read_from r1).bind fun value r2 =>
      (optionRead StringS.read_from r2).bind fun sig r3 =>
        .ok ⟨name, value, sig⟩ r3

/-- Derived `ProfileProperty::write_to`. -/
def ProfileProperty.write_to (p : ProfileProperty) : Except Err (List Nat) := do
  let n ← StringS.write_to p.name
  let v ← StringS.write_to p.value
  let sg ← optionWrite StringS.write_to p.signature
  .ok (n ++ v ++ sg)

/-- Derived `InitializeChatData::read_from`. -/
def InitChatData.read_from (s : List Nat) : PRes InitChatData :=
  (UUID.read_from s).bind fun sid r1 =>
    (i64Read r1).bind fun t r2 =>
      (lenPrefixedBytesRead r2).bind fun pk r3 =>
        (lenPrefixedBytesRead r3).bind fun sg r4 =>
          .ok ⟨sid, t, pk, sg⟩ r4

/-- Derived `InitializeChatData::write_to`. -/
def InitChatData.write_to (d : InitChatData) : Except Err (List Nat) :=
  .ok (UUID.write_to d.chat_session_id ++ i64Write d.public_key_expire_time ++
    lenPrefixedBytesWrite d.enocoded_public_key ++
    lenPrefixedBytesWrite d.public_key_signature)

/-- The reader's per-bit action decode of `PlayersActionsData::read_from`:
the `match i` inside its `for i in 0..8` loop.  The `_ => unreachable!()`
arm is `aborted`. -/
def readActionAt (i : Nat) (s : List Nat) : PRes PlayerAction :=
  match i with
  | 0 => (StringS.read_from s).bind fun name r =>
      (prefixedArrayRead ProfileProperty.read_from r).bind fun props r2 =>
        .ok (.addPlayer name props) r2
  | 1 => (optionRead InitChatData.read_from s).bind fun d r => .ok (.initChat d) r
  | 2 => (VarInt.read_from s).bind fun g r => .ok (.updateGamemode g) r
  | 3 => (boolRead s).bind fun b r => .ok (.updateListed b) r
  | 4 => (VarInt.read_from s).bind fun p r => .ok (.updateLatency p) r
  | 5 => (optionRead Tag.read_from s).bind fun t r => .ok (.updateDisplayName t) r
  | 6 => (VarInt.read_from s).bind fun p r => .ok (.updateListPriority p) r
  | 7 => (boolRead s).bind fun b r => .ok (.updateHat b) r
  | _ => .aborted

/-- The reader's `for i in 0..8` loop over one player: decode one action
per set bit of the shared mask, in bit-index order. -/
def readActionsBits (mask : List Nat) :
    List Nat → List PlayerAction → List Nat → PRes (List PlayerAction)
  | [], acc, s => .ok acc s
  | i :: is, acc, s =>
    match FixedBitSet.get mask i with
    | none => .aborted
    | some true =>
      (readActionAt i s).bind fun a r => readActionsBits mask is (acc ++ [a]) r
    | some false => readActionsBits mask is acc s

/-- The reader's player loop: UUID then the per-bit actions, `n` times. -/
def readPlayers (mask : List Nat) : Nat → List Nat → PRes (List PlayerActions)
  | 0, s => .ok [] s
  | n + 1, s =>
    (UUID.read_from s).bind fun uuid r =>
      (readActionsBits mask (List.range 8) [] r).bind fun pas r2 =>
        (readPlayers mask n r2).bind fun rest r3 => .ok (⟨uuid, pas⟩ :: rest) r3

/-- `PlayersActionsData::read_from`: a `FixedBitSet<8>` mask (one byte),
a VarInt player count, then the players. -/
def PlayersActionsData.read_from (s : List Nat) : PRes (List PlayerActions) :=
  (FixedBitSet.read_from 8 s).bind fun mask r =>
    (VarInt.read_from r).bind fun v r2 =>
      readPlayers mask (VarInt.into_len v) r2

/-- The bit index `PlayersActionsData::write_to` assigns to each action
variant when building the leading mask (its inner `match player_action`). -/
def writerActionIndex : PlayerAction → Nat
  | .addPlayer _ _ => 0
  | .initChat _ => 1
  | .updateDisplayName _ => 2
  | .updateGamemode _ => 3
  | .updateHat _ => 4
  | .updateLatency _ => 5
  | .updateListPriority _ => 6
  | .updateListed _ => 7

/-- The writer's mask construction: set the writer's bit for every action
of every player into a `FixedBitSet::<8>::new()`. -/
def buildActionsMask (players : List PlayerActions) : List Nat :=
  players.foldl
    (fun d p =>
      p.player_actions.foldl (fun d a => FixedBitSet.set d (writerActionIndex a)) d)
    (FixedBitSet.new 8)

/-- The writer's per-action payload. -/
def writeAction : PlayerAction → Except Err (List Nat)
  | .addPlayer name props => do
    let n ← StringS.write_to name
    let ps ← prefixedArrayWrite ProfileProperty.write_to props
    .ok (n ++ ps)
  | .initChat d => optionWrite InitChatData.write_to d
  | .updateDisplayName t => optionWrite (fun tag => .ok (Tag.write_to tag)) t
  | .updateGamemode g => .ok (VarInt.write_to g)
  | .updateHat b => .ok (boolWrite b)
  | .updateLatency p => .ok (VarInt.write_to p)
  | .updateListPriority p => .ok (VarInt.write_to p)
  | .updateListed b => .ok (boolWrite b)

/-- `PlayersActionsData::write_to`: build the mask, write it via
`FixedBitSet::<8>::write_to`, then the VarInt player count, then per
player the UUID and the action payloads in the order they appear in the
player's vector. -/
def PlayersActionsData.write_to (players : List PlayerActions) :
    Except Err (List Nat) := do
  let mask := buildActionsMask players
  let maskBytes ← FixedBitSet.write_to 8 mask
  let body ← writeList (fun (p : PlayerActions) => do
    let abody ← writeList writeAction p.player_actions
    .ok (UUID.write_to p.uuid ++ abody)) players
  .ok (maskBytes ++ VarInt.write_to (usizeToI32 players.length) ++ body)

/-! ## Framing encoder (src/packet_encoder.rs) -/

/-- `MAX_PACKET_SIZE` (src/lib.rs). -/
def MAX_PACKET_SIZE : Nat := 2097152

/-- `MAX_PACKET_DATA_SIZE` (src/lib.rs). -/
def MAX_PACKET_DATA_SIZE : Nat := 8388608

/-- `packet_encoder::PacketEncodeError`. -/
inductive PacketEncodeError : Type where
  | tooLong (n : Nat)
  | compressionFailed (msg : String)
  | message (msg : String)
deriving DecidableEq

/-- `NetworkEncoder::write_packet`, over the frame it appends to the
downstream writer (writing into the model's byte list cannot fail, and
encryption — a transparent byte-for-byte rewrite — is taken on its
identity path).  The zlib compressor appears as the explicit function
argument `compress`, applied at the configured level; the
`debug_assert!` on its output is a release-mode no-op and is not
modelled.  `usize::try_into::<i32>` failures surface as `message` errors
exactly where the source maps them. -/
def NetworkEncoder.write_packet (compression : Option (Nat × Nat))
    (compress : List Nat → List Nat) (packet_data : List Nat) :
    Except PacketEncodeError (List Nat) :=
  let data_len := packet_data.length
  if data_len > MAX_PACKET_DATA_SIZE then .error (.tooLong data_len)
  else if data_len ≥ 2 ^ 31 then
    .error (.message "Packet data length is too large to fit in VarInt!")
  else
    match compression with
    | some (compression_threshold, _level) =>
      if data_len ≥ compression_threshold then
        let compressed_buf := compress packet_data
        let full_packet_len := VarInt.written_size data_len + compressed_buf.length
        if full_packet_len ≥ 2 ^ 31 then
          .error (.message "Full packet length is too large to fit in VarInt!")
        else
          let complete_serialization_length :=
            VarInt.written_size full_packet_len + full_packet_len
          if complete_serialization_length > MAX_PACKET_SIZE then
            .error (.tooLong complete_serialization_length)
          else
            .ok (VarInt.write_to full_packet_len ++ VarInt.write_to data_len ++
              compressed_buf)
      else
        let full_packet_len := 1 + data_len
        if full_packet_len ≥ 2 ^ 31 then
          .error (.message "Full packet length is too large to fit in VarInt!")
        else
          let complete_serialization_length :=
            VarInt.written_size full_packet_len + full_packet_len
          if complete_serialization_length > MAX_PACKET_SIZE then
            .error (.tooLong complete_serialization_length)
          else
            .ok (VarInt.write_to full_packet_len ++ VarInt.write_to 0 ++ packet_data)
    | none =>
      let full_packet_len := data_len
      let complete_serialization_length :=
        VarInt.written_size full_packet_len + full_packet_len
      if complete_serialization_length > MAX_PACKET_SIZE then
        .error (.tooLong complete_serialization_length)
      else
        .ok (VarInt.write_to full_packet_len ++ packet_data)

/-! ## Framing decoder (src/packet_decoder.rs) -/

/-- `packet_decoder::PacketDecodeError`. -/
inductive PacketDecodeError : Type where
  | decodeID
  | tooLong
  | outOfBounds
  | malformedLength (msg : String)
  | failedDecompression (msg : String)
  | notCompressed
  | connectionClosed
  | serialize (e : Err)
deriving DecidableEq

/-- `RawPacket` (src/lib.rs). -/
structure RawPacket : Type where
  id : Int
  payload : List Nat
deriving DecidableEq

/-- Result of `get_raw_packet`: a raw packet, a `PacketDecodeError`, or a
panic. -/
inductive DRes : Type where
  | ok : RawPacket → DRes
  | err : PacketDecodeError → DRes
  | aborted : DRes
deriving DecidableEq

/-- The tail of `get_raw_packet`: read the packet id VarInt (errors become
`DecodeID`), then `read_to_end` for the payload. -/
def readIdPayload (bs : List Nat) : DRes :=
  match VarInt.read_from bs with
  | .ok idv rest => .ok ⟨idv, rest⟩
  | .err _ => .err .decodeID
  | .aborted => .aborted

/-- `NetworkDecoder::get_raw_packet`, over the byte stream of the
connection (decryption — a transparent byte-for-byte rewrite — is taken
on its identity path).  The zlib inflater over the remaining bounded
bytes appears as the explicit function argument `inflate`; on the
compressed path the packet id and payload are parsed from its output.
The `u64` subtraction computing `raw_packet_len` cannot underflow, since
a successful inner VarInt read consumes at least `written_size` bytes of
the at most `packet_len`-byte bounded view. -/
def NetworkDecoder.get_raw_packet (compression : Option Nat)
    (inflate : List Nat → Except String (List Nat)) (input : List Nat) : DRes :=
  match VarInt.read_from input with
  | .err e => .err (.serialize e)
  | .aborted => .aborted
  | .ok v rest =>
    let packet_len := toU64 v
    if packet_len > MAX_PACKET_SIZE then .err .outOfBounds
    else
      let bounded := rest.take packet_len
      match compression with
      | some threshold =>
        match VarInt.read_from bounded with
        | .err e => .err (.serialize e)
        | .aborted => .aborted
        | .ok dv rest1 =>
          let raw_packet_len := packet_len - VarInt.written_size dv
          let decompressed_len := toU64 dv
          if decompressed_len > MAX_PACKET_DATA_SIZE then .err .tooLong
          else if decompressed_len > 0 then
            match inflate rest1 with
            | .error msg => .err (.failedDecompression msg)
            | .ok inflated => readIdPayload inflated
          else
            if raw_packet_len > threshold then .err .notCompressed
            else readIdPayload rest1
      | none => readIdPayload bounded

/-- The outer length value (the value carried by the frame's leading
length VarInt) that `write_packet` produces in each mode: the payload
length without compression, `1 + len` below the threshold, and the
written size of the inner length VarInt plus the compressed size at or
above it. -/
def encoderOuterLen : Option (Nat × Nat) → (List Nat → List Nat) → List Nat → Nat
  | none, _, d => d.length
  | some (t, _), compress, d =>
    if d.length ≥ t then VarInt.written_size d.length + (compress d).length
    else 1 + d.length

/-- Whether an encoder result is the `TooLong` abort. -/
def isTooLongErr : Except PacketEncodeError (List Nat) → Bool
  | .error (.tooLong _) => true
  | _ => false

/-! ## Claim theorems -/

/-- Helper: the id-and-payload tail of `get_raw_packet` never produces the
`NotCompressed` error. -/
theorem readIdPayload_ne_notCompressed (bs : List Nat) :
    readIdPayload bs ≠ .err .notCompressed := by
  unfold readIdPayload
  cases VarInt.read_from bs <;> simp

/-- C7: with compression enabled at threshold `t`, on a frame whose outer
length VarInt carries `L ≤ MAX_PACKET_SIZE` and whose inner
decompressed-length VarInt reads as `0`, `get_raw_packet` treats the
remaining `L - written_size(0) = L - 1` bytes of the bounded view as the
uncompressed payload: it fails with `NotCompressed` exactly when
`L - 1 > t`, and otherwise returns the raw bytes as-is — the packet id
VarInt parsed from them and the untransformed remainder as the payload,
with the inflater never involved. -/
theorem c7_decoder_zero_length_uncompressed (t : Nat)
    (inflate : List Nat → Except String (List Nat)) (input rest rest1 : List Nat)
    (v : Int)
    (hv : VarInt.read_from input = .ok v rest)
    (hlen : toU64 v ≤ MAX_PACKET_SIZE)
    (hz : VarInt.read_from (rest.take (toU64 v)) = .ok 0 rest1) :
    (NetworkDecoder.get_raw_packet (some t) inflate input = .err .notCompressed ↔
      toU64 v - 1 > t) ∧
    (toU64 v - 1 ≤ t → ∀ idv rest2, VarInt.read_from rest1 = .ok idv rest2 →
      NetworkDecoder.get_raw_packet (some t) inflate input = .ok ⟨idv, rest2⟩) := by
  have hmps : ¬ (toU64 v > MAX_PACKET_SIZE) := by omega
  have hred : NetworkDecoder.get_raw_packet (some t) inflate input =
      if toU64 v - VarInt.written_size 0 > t then .err .notCompressed
      else readIdPayload rest1 := by
    unfold NetworkDecoder.get_raw_packet
    rw [hv]
    simp only [hmps, if_false, hz]
    norm_num [toU64, MAX_PACKET_DATA_SIZE]
  have hws : VarInt.written_size 0 = 1 := rfl
  rw [hws] at hred
  constructor
  · rw [hred]
    by_cases hgt : toU64 v - 1 > t
    · simp [hgt]
    · simp only [hgt, if_false, iff_false]
      intro hcontra
      exact readIdPayload_ne_notCompressed rest1 (by simpa using hcontra)
  · intro hle idv rest2 hid
    rw [hred, if_neg (by omega)]
    unfold readIdPayload
    rw [hid]

/-- C7 witness: threshold 5, frame `[3, 0, 5, 171]` (outer length 3, inner
length 0, id 5, payload `[171]`) is returned as-is; at threshold 1 the
same frame fails with `NotCompressed` since its 2 remaining bytes exceed
the threshold. -/
theorem c7_witness :
    NetworkDecoder.get_raw_packet (some 5) (fun _ => .ok []) [3, 0, 5, 171] =
      .ok ⟨5, [171]⟩ ∧
    NetworkDecoder.get_raw_packet (some 1) (fun _ => .ok []) [3, 0, 5, 171] =
      .err .notCompressed := by
  constructor
  · exact (c7_decoder_zero_length_uncompressed 5 (fun _ => .ok [])
      [3, 0, 5, 171] [0, 5, 171] [5, 171] 3 (by decide) (by decide)
      (by decide)).2 (by decide) 5 [171] (by decide)
  · exact (c7_decoder_zero_length_uncompressed 1 (fun _ => .ok [])
      [3, 0, 5, 171] [0, 5, 171] [5, 171] 3 (by decide) (by decide)
      (by decide)).1.mpr (by decide)

/-- C6 counterexample: the claim states that every packet whose outer
length value is at most `MAX_PACKET_SIZE = 2097152` is written without
the `TooLong` error.  With no compression, a payload of 2097150 bytes has
outer length value 2097150 ≤ MAX_PACKET_SIZE, yet `write_packet` aborts
with `TooLong(2097153)`: the code checks
`written_size(L) + L > MAX_PACKET_SIZE` — the frame size including the
length prefix itself — not `L > MAX_PACKET_SIZE`. -/
theorem c6_counterexample :
    2097150 ≤ MAX_PACKET_SIZE ∧
    NetworkEncoder.write_packet none id (List.replicate 2097150 0) =
      .error (.tooLong 2097153) := by
  refine ⟨by norm_num [MAX_PACKET_SIZE], ?_⟩
  have hws : VarInt.written_size ((2097150 : Nat) : Int) = 3 := by decide
  simp only [NetworkEncoder.write_packet, List.length_replicate, hws]
  norm_num [MAX_PACKET_DATA_SIZE, MAX_PACKET_SIZE]

/-- C6 (amended): `write_packet` aborts with `TooLong` exactly when the
payload length exceeds `MAX_PACKET_DATA_SIZE = 8388608` or when the outer
length value `L` fits in an `i32` and `written_size(L) + L` — the full
frame size including the length VarInt itself — exceeds
`MAX_PACKET_SIZE = 2097152`; every packet for which neither bound is hit
is written without that error, in all three modes. -/
theorem c6_encoder_toolong_exact (compression : Option (Nat × Nat))
    (compress : List Nat → List Nat) (d : List Nat) :
    isTooLongErr (NetworkEncoder.write_packet compression compress d) = true ↔
      (d.length > MAX_PACKET_DATA_SIZE ∨
        (encoderOuterLen compression compress d < 2 ^ 31 ∧
          VarInt.written_size (encoderOuterLen compression compress d) +
            encoderOuterLen compression compress d > MAX_PACKET_SIZE)) := by
  have h1 : MAX_PACKET_SIZE = 2097152 := rfl
  have h2 : MAX_PACKET_DATA_SIZE = 8388608 := rfl
  cases compression with
  | none =>
    simp only [NetworkEncoder.write_packet, encoderOuterLen, h1, h2]
    split_ifs <;> simp [isTooLongErr] <;> (try push_cast at *) <;> omega
  | some p =>
    obtain ⟨t, lvl⟩ := p
    simp only [NetworkEncoder.write_packet, encoderOuterLen, h1, h2]
    split_ifs <;> simp [isTooLongErr] <;> (try push_cast at *) <;> omega

/-- C1: the claim states that for every 32-bit integer `n`,
`read(write(n)) = n` and `len(write(n)) = written_size(n)`.  The code
violates it: `write_to` tests `(value as u8 & !0x7F) == 0`, masking the
value to its low byte before testing the continuation condition, so
`VarInt(16384)` (low byte `0x00`) is written as the single byte `[0]` —
which reads back as `0`, not `16384`, and has length 1 where
`written_size(16384) = 3`.  (`VarLong::write_to` tests the full value and
does not have this bug, and the spec's own §8 test vector includes
16384.) -/
theorem c1_varint_write_truncates_16384 :
    VarInt.write_to 16384 = [0] ∧
    VarInt.read_from (VarInt.write_to 16384) = .ok 0 [] ∧
    VarInt.write_to 16384 ≠ [0xFF, 0x80, 1] ∧
    VarInt.written_size 16384 = 3 ∧
    (VarInt.write_to 16384).length = 1 := by decide

set_option maxRecDepth 8000 in
/-- C2: the claim states that `Position` round-trips with sign extension
on decode.  The code decodes with *logical* shifts on the unsigned `u64`
word (`(val << 52) >> 52` on a `u64` zero-extends) and truncating
`as i32` casts, so no field is sign-extended: `(-1, -1, -1)` packs to the
all-ones word but reads back as `(67108863, 4095, 67108863)`.
Non-negative triples in range do round-trip, which isolates the failure
to the missing sign extension. -/
theorem c2_position_decode_does_not_sign_extend :
    Position.write_to (-1) (-1) (-1) = List.replicate 8 255 ∧
    Position.read_from (Position.write_to (-1) (-1) (-1)) =
      .ok (67108863, 4095, 67108863) [] ∧
    Position.read_from (Position.write_to 1 2 3) = .ok (1, 2, 3) [] := by decide

/-- C3: the claim states that `Tag::write_to` emits a leading tag-type
byte followed by the payload, so that `read_from ∘ write_to` is the
identity.  The code's `write_to` emits only the payload — no type byte at
the top level — while `read_from` starts by consuming a type byte:
`Tag::Byte(1)` is written as `[1]`, which `read_from` misparses (it takes
`1` as the type byte and hits end-of-stream looking for the payload);
prepending the missing type byte `1` by hand makes the same bytes parse
back to `Tag::Byte(1)`. -/
theorem c3_tag_write_omits_type_byte :
    Tag.write_to (.byte 1) = [1] ∧
    Tag.read_from (Tag.write_to (.byte 1)) = .err .ioEof ∧
    Tag.read_from (1 :: Tag.write_to (.byte 1)) = .ok (.byte 1) [] :=
  ⟨rfl, rfl, rfl⟩

/-- C4: the claim states that both equipment codecs use the top bit `0x80`
of the flags byte as a continuation flag (last entry clear, slot id in
the low bits) and therefore round-trip.  The code does neither
consistently: the writer emits each entry's slot id with the top bit
*clear* and a lone `0x80` terminator after all entries, while the reader
stops at the first byte with the top bit clear and rejects every byte
with the top bit set ("invalid equipment slot", since it matches the raw
byte against `0..=6`).  So the writer's empty-list frame `[0x80]` is
rejected by the reader, and a one-entry frame reads back as the empty
list. -/
theorem c4_equipment_roundtrip_fails :
    EntityEquipment.write_to unitCS [] = .ok [0x80] ∧
    EntityEquipment.read_from unitCS [0x80] =
      .err (.serialize "invalid equipment slot: 128") ∧
    EntityEquipment.write_to unitCS [⟨.mainHand, ⟨1, some ⟨5, [], []⟩⟩⟩] =
      .ok [0, 1, 5, 0, 0, 0x80] ∧
    EntityEquipment.read_from unitCS [0, 1, 5, 0, 0, 0x80] =
      .ok [] [1, 5, 0, 0, 0x80] :=
  ⟨rfl, rfl, rfl, rfl⟩

/-- C5: the claim states that `PlayersActionsData::read_from` and
`write_to` share one bit-index-to-action assignment (bit 2 gamemode,
bit 3 listed, bit 4 latency, bit 5 display name, bit 7 hat).  The code's
reader uses that assignment, but the writer does not: its mask match
assigns `UpdateGamemode` to bit 3 (and display-name to 2, hat to 4,
latency to 5, listed to 7) — and, before the mismatch can even reach the
wire, the writer always fails, because it builds the mask in a
`FixedBitSet::<8>::new()` whose backing vector has 8 bytes where
`FixedBitSet::<8>::write_to` demands exactly 1.  The reader decodes a
gamemode payload at bit 2 and takes bit 3 as `UpdateListed`. -/
theorem c5_players_actions_writer_mismatch :
    PlayersActionsData.write_to [⟨0, [.updateGamemode 1]⟩] =
      .error (.serialize "wrong fixed bitset length: 8") ∧
    writerActionIndex (.updateGamemode 1) = 3 ∧
    readActionAt 2 [1] = .ok (.updateGamemode 1) [] ∧
    PlayersActionsData.read_from ([0x08, 1] ++ List.replicate 16 0 ++ [1, 9]) =
      .ok [⟨0, [.updateListed true]⟩] [9] :=
  ⟨rfl, rfl, rfl, rfl⟩

/-- C8: the claim states `nbt::read_string` is total with UTF-8 failures
surfaced as error values.  The code calls
`String::from_utf8(bytes).unwrap()`: a `u16` length prefix followed by
the non-UTF-8 byte `0xFF` panics (`aborted`) instead of returning an
error, while valid UTF-8 is returned normally.  (`String::read_from` in
lib.rs uses `?` and does surface `Utf8Error`; the nbt helper is the
exception.) -/
theorem c8_nbt_read_string_panics_on_invalid_utf8 :
    nbtReadString [0, 1, 0xFF] = .aborted ∧
    nbtReadString [0, 1, 0x41] = .ok [0x41] [] :=
  ⟨rfl, rfl⟩

/-- C9 counterexample: the claim states `Slot::write_to` does not silently
succeed and emit bytes for `{count: 0, item: Some(_)}`.  It does: on that
value it returns `Ok` with the count byte followed by the item's bytes. -/
theorem c9_counterexample :
    Slot.write_to unitCS ⟨0, some ⟨1, [], []⟩⟩ = .ok [0, 1, 0, 0] := rfl

/-- C9 (amended): writing a `Slot` whose `item_count` is 0 but whose
`item` is `Some(_)` is not surfaced as an abort or error:
`Slot::write_to` performs no consistency check and silently emits the
count followed by the item's bytes; a `Slot` with `item = None` is
written as just its count. -/
theorem c9_slot_write_silently_accepts_zero_count_item {γ : Type}
    (cs : CompSer γ) (it : Item γ) (bs : List Nat)
    (h : Item.write_to cs it = .ok bs) :
    Slot.write_to cs ⟨0, some it⟩ = .ok (VarInt.write_to 0 ++ bs) ∧
    VarInt.write_to 0 = [0] ∧
    (∀ c : Int, Slot.write_to cs ⟨c, none⟩ = .ok (VarInt.write_to c)) := by
  refine ⟨?_, rfl, fun c => rfl⟩
  simp only [Slot.write_to, h]
  rfl

/-- C9 witness: the amended theorem applied to the concrete slot
`{count: 0, item: Some(Item{id: 1, no components})}`. -/
theorem c9_witness :
    Slot.write_to unitCS ⟨0, some ⟨1, [], []⟩⟩ =
      .ok (VarInt.write_to 0 ++ [1, 0, 0]) :=
  (c9_slot_write_silently_accepts_zero_count_item unitCS ⟨1, [], []⟩ [1, 0, 0] rfl).1

/-- C10: a freshly constructed `FixedBitSet::<L>::new()` backs itself with
`L` bytes, but `write_to` demands exactly `(L+7)/8`, so for every
`L ≥ 2` serializing a fresh value fails with the "wrong fixed bitset
length" error; a value obtained by `read_from` from a stream of at least
`(L+7)/8` bytes has exactly the demanded length and serializes
successfully. -/
theorem c10_fixed_bitset_new_unserializable (L : Nat) (bytes : List Nat)
    (hL : 2 ≤ L) :
    FixedBitSet.write_to L (FixedBitSet.new L) =
      .error (.serialize s!"wrong fixed bitset length: {L}") ∧
    ((L + 7) / 8 ≤ bytes.length →
      FixedBitSet.read_from L bytes =
        .ok (bytes.take ((L + 7) / 8)) (bytes.drop ((L + 7) / 8)) ∧
      FixedBitSet.write_to L (bytes.take ((L + 7) / 8)) =
        .ok (bytes.take ((L + 7) / 8))) := by
  constructor
  · have hne : (FixedBitSet.new L).length ≠ (L + 7) / 8 := by
      simp only [FixedBitSet.new, List.length_replicate]
      omega
    simp [FixedBitSet.write_to, hne]
  · intro hlen
    refine ⟨rfl, ?_⟩
    have hl : (bytes.take ((L + 7) / 8)).length = (L + 7) / 8 := by
      simp [List.length_take]
      omega
    simp [FixedBitSet.write_to, hl]

/-- C10 witness: `L = 2` with a one-byte stream. -/
theorem c10_witness :
    FixedBitSet.write_to 2 (FixedBitSet.new 2) =
      .error (.serialize "wrong fixed bitset length: 2") ∧
    FixedBitSet.write_to 2 ((List.take ((2 + 7) / 8)) [171]) = .ok [171] := by
  have h := c10_fixed_bitset_new_unserializable 2 [171] (by norm_num)
  exact ⟨h.1, (h.2 (by norm_num)).2⟩

end MCRP

